import Mathlib

/-!
Verification development for the CogniTest framework's severity-scoring and
response-parsing routines (src/cognitest/core/bug_classifier.py and
src/cognitest/core/log_interpreter.py).

Modelling conventions:
- Python numbers (int/float) are modelled as rationals; the weights 0.5/0.3/0.2
  and all values reachable in the claims are exactly representable, so no
  floating-point rounding is relevant to any statement proved here.
- A decoded JSON object is modelled by the record `PyDict` holding the six keys
  the code ever reads or writes (`severity`, `impact_score`, `frequency_score`,
  `recovery_score`, `weighted_score`, `reasoning`), each optional; keys the code
  never touches are dropped since nothing observes them.
- Fallible Python code is modelled in `Except PyErr`; `PyErr.jsonDecodeError`
  stands for `json.JSONDecodeError`, `PyErr.typeError` for `TypeError` raised by
  arithmetic or comparison on a non-numeric value, `PyErr.keyError` for
  `KeyError` on a missing dict key.
- Python `str.lower` is modelled on ASCII letters (`Char.toLower`); every string
  appearing in the claims is ASCII.
-/

mutual
/-- A JSON value as produced by `json.loads` on the brace-free object bodies the
classifier extracts (strings, numbers, booleans, null, and arrays of these;
nested objects cannot occur because the extraction regex forbids inner braces).
Arrays are represented by the mutually defined list type `JArray`. -/
inductive JValue where
  | num (q : ℚ)
  | str (s : String)
  | bool (b : Bool)
  | null
  | arr (elems : JArray)
deriving DecidableEq, Repr

/-- Spine of a JSON array value. -/
inductive JArray where
  | nil
  | cons (hd : JValue) (tl : JArray)
deriving DecidableEq, Repr
end

/-- Python exceptions observable from the modelled code paths. -/
inductive PyErr where
  | jsonDecodeError
  | typeError
  | keyError
deriving DecidableEq, Repr

/-- The classification dict flowing through `_parse_classification` and
`_validate_classification`: the six keys the code reads or writes, each
possibly absent. -/
structure PyDict where
  severity : Option JValue
  impact_score : Option JValue
  frequency_score : Option JValue
  recovery_score : Option JValue
  weighted_score : Option JValue
  reasoning : Option JValue
deriving DecidableEq, Repr

/-- The empty dict (no keys present). -/
def PyDict.empty : PyDict := ⟨none, none, none, none, none, none⟩

/-- Assignment `d[k] = v` restricted to the six tracked keys; any other key is
dropped because no modelled code path ever reads it. Later assignments to the
same key overwrite earlier ones, as in a Python dict. -/
def PyDict.setKey (d : PyDict) (k : String) (v : JValue) : PyDict :=
  if k = "severity" then ⟨some v, d.impact_score, d.frequency_score, d.recovery_score, d.weighted_score, d.reasoning⟩
  else if k = "impact_score" then ⟨d.severity, some v, d.frequency_score, d.recovery_score, d.weighted_score, d.reasoning⟩
  else if k = "frequency_score" then ⟨d.severity, d.impact_score, some v, d.recovery_score, d.weighted_score, d.reasoning⟩
  else if k = "recovery_score" then ⟨d.severity, d.impact_score, d.frequency_score, some v, d.weighted_score, d.reasoning⟩
  else if k = "weighted_score" then ⟨d.severity, d.impact_score, d.frequency_score, d.recovery_score, some v, d.reasoning⟩
  else if k = "reasoning" then ⟨d.severity, d.impact_score, d.frequency_score, d.recovery_score, d.weighted_score, some v⟩
  else d

instance exceptDecEq (ε α : Type) [DecidableEq ε] [DecidableEq α] :
    DecidableEq (Except ε α) := fun a b =>
  match a, b with
  | .ok x, .ok y => decidable_of_iff (x = y) (by simp)
  | .error x, .error y => decidable_of_iff (x = y) (by simp)
  | .ok _, .error _ => isFalse (by simp)
  | .error _, .ok _ => isFalse (by simp)

/-- Numeric coercion performed by Python arithmetic such as `0.5 * x` or
`total + x`: numbers stand for themselves, booleans for 0/1, and any other
value raises `TypeError`. -/
def toNum : JValue → Except PyErr ℚ
  | .num q => .ok q
  | .bool b => .ok (if b then 1 else 0)
  | _ => .error .typeError

/-- Python `min(a, b)`: the second argument only when it is strictly smaller
(on a tie `min` returns its first argument). -/
def pyMin (a b : ℚ) : ℚ := if b < a then b else a

/-- Python `max(a, b)`: the second argument only when it is strictly larger
(on a tie `max` returns its first argument). -/
def pyMax (a b : ℚ) : ℚ := if a < b then b else a

/-- Python `max(0, min(10, v))` from bug_classifier.py line 184. On a boolean,
Python's `min`/`max` return one of their arguments: `True` (numerically 1) is
returned unchanged, while `False` ties with `0` and `max` returns its first
argument `0`. Any non-numeric value raises `TypeError`. -/
def pyClamp : JValue → Except PyErr JValue
  | .num q => .ok (.num (pyMax 0 (pyMin 10 q)))
  | .bool b => .ok (if b then .bool true else .num 0)
  | _ => .error .typeError

/-- The four `Severity` enum values, in declaration order. -/
def severity_values : List String := ["Critical", "High", "Medium", "Low"]

/-- Python `classification.get('severity') in valid_severities`: true exactly
when the key is present, holds a string, and that string is one of the four
labels (a missing key yields `None`, which is not in the list; a non-string
value compares unequal to every label). -/
def sevValid : Option JValue → Bool
  | some (.str s) => severity_values.contains s
  | _ => false

/-- Clamp one of the three sub-score keys when present (bug_classifier.py
lines 182-184); an absent key is skipped. -/
def clampField : Option JValue → Except PyErr (Option JValue)
  | none => .ok none
  | some v =>
    match pyClamp v with
    | .error e => .error e
    | .ok w => .ok (some w)

/-- Severity coercion step of `_validate_classification` (bug_classifier.py
lines 176-179): an invalid or missing severity becomes "Medium"; every other
key is left unchanged. -/
def fix_severity (c : PyDict) : PyDict :=
  if sevValid c.severity then c else
    ⟨some (.str "Medium"), c.impact_score, c.frequency_score, c.recovery_score, c.weighted_score, c.reasoning⟩

/-- Clamping and recomputation steps of `_validate_classification`
(bug_classifier.py lines 181-191): clamp each present sub-score to the range
0..10 in key order, then recompute `weighted_score` as
`0.5 * get('impact_score', 5) + 0.3 * get('frequency_score', 5) +
0.2 * get('recovery_score', 5)` over the mutated dict, overwriting any
model-supplied value. -/
def clamp_and_reweight (c0 : PyDict) : Except PyErr PyDict :=
  match clampField c0.impact_score with
  | .error e => .error e
  | .ok ii =>
  match clampField c0.frequency_score with
  | .error e => .error e
  | .ok ff =>
  match clampField c0.recovery_score with
  | .error e => .error e
  | .ok rr =>
  match toNum (ii.getD (.num 5)) with
  | .error e => .error e
  | .ok wi =>
  match toNum (ff.getD (.num 5)) with
  | .error e => .error e
  | .ok wf =>
  match toNum (rr.getD (.num 5)) with
  | .error e => .error e
  | .ok wr =>
    .ok ⟨c0.severity, ii, ff, rr, some (.num (0.5 * wi + 0.3 * wf + 0.2 * wr)), c0.reasoning⟩

/-- `BugClassifier._validate_classification` (bug_classifier.py lines 174-193):
the severity coercion followed by clamping and weighted-score recomputation. -/
def validate_classification (c : PyDict) : Except PyErr PyDict :=
  clamp_and_reweight (fix_severity c)

/-- Reading off the numeric value of a final (post-validation) sub-score for
stating the weighted-score invariant: an absent key contributes the default 5,
a number itself, a boolean 0/1. The last case is unreachable on dicts produced
by a successful validation. -/
def jq : Option JValue → ℚ
  | none => 5
  | some (.num q) => q
  | some (.bool b) => if b then 1 else 0
  | some _ => 0

/-- Boolean prefix test on character lists. -/
def hasPrefixL : List Char → List Char → Bool
  | [], _ => true
  | _ :: _, [] => false
  | a :: as, b :: bs => a == b && hasPrefixL as bs

/-- ASCII lowercasing of a character list, modelling Python `str.lower` on the
ASCII strings relevant to the claims. -/
def lowerL (l : List Char) : List Char := l.map Char.toLower

/-- Boolean substring test on character lists. -/
def hasInfixL (n : List Char) : List Char → Bool
  | [] => hasPrefixL n []
  | c :: t => hasPrefixL n (c :: t) || hasInfixL n t

/-- Case-insensitive substring test, modelling both Python `needle in s.lower()`
(for lowercase needles) and a case-insensitive regex search for a literal. -/
def hasInfixCI (needle hay : String) : Bool :=
  hasInfixL (lowerL needle.data) (lowerL hay.data)

/-- Helper for the extraction regex: given the characters following a literal
opening brace, return the run of brace-free characters if the next brace is a
closing one, and `none` if another opening brace (or the end of input) comes
first. -/
def closeBrace : List Char → Option (List Char)
  | [] => none
  | c :: t =>
    if c = '}' then some []
    else if c = '{' then none
    else
      match closeBrace t with
      | some mid => some (c :: mid)
      | none => none

/-- Scan for the leftmost match of the extraction pattern. -/
def extractAux : List Char → Option String
  | [] => none
  | c :: t =>
    if c = '{' then
      match closeBrace t with
      | some mid => some (String.mk ('{' :: (mid ++ ['}'])))
      | none => extractAux t
    else extractAux t

/-- Python `re.search` for a brace-delimited brace-free block
(bug_classifier.py line 120): the leftmost opening brace whose next brace is a
closing one, returned together with its brace-free interior. -/
def extractJson (s : String) : Option String := extractAux s.data

/-- JSON insignificant whitespace. -/
def isJsonWS (c : Char) : Bool := c = ' ' || c = '\t' || c = '\n' || c = '\r'

/-- Drop leading JSON whitespace. -/
def skipWS (l : List Char) : List Char := l.dropWhile isJsonWS

/-- Value of a hexadecimal digit. -/
def hexVal (c : Char) : Option Nat :=
  let n := c.toNat
  if 48 ≤ n && n ≤ 57 then some (n - 48)
  else if 97 ≤ n && n ≤ 102 then some (n - 87)
  else if 65 ≤ n && n ≤ 70 then some (n - 55)
  else none

/-- Body of a JSON string literal, after the opening quote: returns the decoded
content and the characters after the closing quote. Handles the escapes
accepted by `json.loads`; rejects unescaped control characters as the strict
decoder does. -/
def parseJStringAux : Nat → List Char → List Char → Option (String × List Char)
  | 0, _, _ => none
  | _ + 1, _, [] => none
  | fuel + 1, acc, c :: rest =>
    if c = '"' then some (String.mk acc.reverse, rest)
    else if c = '\\' then
      match rest with
      | [] => none
      | e :: rest2 =>
        if e = '"' then parseJStringAux fuel ('"' :: acc) rest2
        else if e = '\\' then parseJStringAux fuel ('\\' :: acc) rest2
        else if e = '/' then parseJStringAux fuel ('/' :: acc) rest2
        else if e = 'b' then parseJStringAux fuel ('\x08' :: acc) rest2
        else if e = 'f' then parseJStringAux fuel ('\x0c' :: acc) rest2
        else if e = 'n' then parseJStringAux fuel ('\n' :: acc) rest2
        else if e = 'r' then parseJStringAux fuel ('\r' :: acc) rest2
        else if e = 't' then parseJStringAux fuel ('\t' :: acc) rest2
        else if e = 'u' then
          match rest2 with
          | a :: b :: c2 :: d :: rest3 =>
            match hexVal a, hexVal b, hexVal c2, hexVal d with
            | some x, some y, some z, some w =>
              parseJStringAux fuel (Char.ofNat (((x * 16 + y) * 16 + z) * 16 + w) :: acc) rest3
            | _, _, _, _ => none
          | _ => none
        else none
    else if c.toNat < 32 then none
    else parseJStringAux fuel (c :: acc) rest

/-- Parse a JSON string literal body with sufficient fuel. -/
def parseJString (l : List Char) : Option (String × List Char) :=
  parseJStringAux (l.length + 1) [] l

/-- Numeric value of a digit run. -/
def digitsToNat (ds : List Char) : Nat :=
  ds.foldl (fun a c => a * 10 + (c.toNat - 48)) 0

/-- Optional fraction part of a JSON number. -/
def parseFrac (l : List Char) : Option (ℚ × List Char) :=
  match l with
  | '.' :: t =>
    let fds := t.takeWhile Char.isDigit
    let rest := t.dropWhile Char.isDigit
    if fds = [] then none
    else some ((digitsToNat fds : ℚ) / ((10 : ℚ) ^ fds.length), rest)
  | _ => some (0, l)

/-- Optional exponent part of a JSON number. -/
def parseExp (l : List Char) : Option (Int × List Char) :=
  match l with
  | [] => some (0, [])
  | c :: t =>
    if c = 'e' || c = 'E' then
      let st := match t with
        | '+' :: t2 => ((1 : Int), t2)
        | '-' :: t2 => ((-1 : Int), t2)
        | _ => ((1 : Int), t)
      let eds := st.2.takeWhile Char.isDigit
      let rest := st.2.dropWhile Char.isDigit
      if eds = [] then none else some (st.1 * (digitsToNat eds : Int), rest)
    else some (0, c :: t)

/-- Scale a rational by a power of ten. -/
def applyExp (q : ℚ) (e : Int) : ℚ :=
  if 0 ≤ e then q * (10 : ℚ) ^ e.toNat else q / (10 : ℚ) ^ (-e).toNat

/-- A JSON number: optional minus sign, integer part without leading zeros,
optional fraction, optional exponent. Exact rational value (Python converts to
binary floating point; no claim proved here depends on that rounding). -/
def parseJNumber (l : List Char) : Option (ℚ × List Char) :=
  let sl := match l with
    | '-' :: t => (true, t)
    | _ => (false, l)
  let ids := sl.2.takeWhile Char.isDigit
  let l2 := sl.2.dropWhile Char.isDigit
  if ids = [] then none
  else if 1 < ids.length ∧ ids.headD ' ' = '0' then none
  else
    match parseFrac l2 with
    | none => none
    | some (fq, l3) =>
      match parseExp l3 with
      | none => none
      | some (e, l4) =>
        let mag := applyExp ((digitsToNat ids : ℚ) + fq) e
        some (if sl.1 then -mag else mag, l4)

mutual
/-- A JSON value other than an object (objects cannot occur below the top level
of the extracted block, whose interior is brace-free). -/
def parseJValue : Nat → List Char → Option (JValue × List Char)
  | 0, _ => none
  | fuel + 1, l =>
    match skipWS l with
    | [] => none
    | c :: t =>
      if c = '"' then
        match parseJString t with
        | some (s, rest) => some (.str s, rest)
        | none => none
      else if c = 't' then
        match t with
        | 'r' :: 'u' :: 'e' :: rest => some (.bool true, rest)
        | _ => none
      else if c = 'f' then
        match t with
        | 'a' :: 'l' :: 's' :: 'e' :: rest => some (.bool false, rest)
        | _ => none
      else if c = 'n' then
        match t with
        | 'u' :: 'l' :: 'l' :: rest => some (.null, rest)
        | _ => none
      else if c = '[' then
        match skipWS t with
        | ']' :: rest => some (.arr .nil, rest)
        | t2 => parseJItems fuel t2
      else
        match parseJNumber (c :: t) with
        | some (q, rest) => some (.num q, rest)
        | none => none

/-- Comma-separated items of a non-empty JSON array, up to the closing bracket. -/
def parseJItems : Nat → List Char → Option (JValue × List Char)
  | 0, _ => none
  | fuel + 1, l =>
    match parseJValue fuel l with
    | none => none
    | some (v, rest) =>
      match skipWS rest with
      | ',' :: rest2 =>
        match parseJItems fuel rest2 with
        | some (.arr vs, rest3) => some (.arr (.cons v vs), rest3)
        | _ => none
      | ']' :: rest2 => some (.arr (.cons v .nil), rest2)
      | _ => none
end

/-- Key/value pairs of the object body, assigning each pair into the dict in
order (so a duplicated key keeps the last value, as `json.loads` does); the
closing brace must be followed by whitespace only, as `json.loads` rejects
trailing data. -/
def parseJPairs : Nat → List Char → PyDict → Option PyDict
  | 0, _, _ => none
  | fuel + 1, l, acc =>
    match skipWS l with
    | '"' :: t =>
      match parseJString t with
      | none => none
      | some (k, rest) =>
        match skipWS rest with
        | ':' :: rest2 =>
          match parseJValue (rest2.length + 1) rest2 with
          | none => none
          | some (v, rest3) =>
            match skipWS rest3 with
            | ',' :: rest4 => parseJPairs fuel rest4 (acc.setKey k v)
            | '}' :: rest4 => if skipWS rest4 = [] then some (acc.setKey k v) else none
            | _ => none
        | _ => none
    | _ => none

/-- Python `json.loads` restricted to the inputs this program ever feeds it: a
single object literal (the extraction step guarantees the top level is a
brace-delimited block with brace-free interior). Returns `none` where
`json.loads` raises `json.JSONDecodeError`. -/
def jsonLoads (s : String) : Option PyDict :=
  match skipWS s.data with
  | '{' :: t =>
    match skipWS t with
    | '}' :: rest => if skipWS rest = [] then some PyDict.empty else none
    | t2 => parseJPairs (t2.length + 1) t2 PyDict.empty
  | _ => none

/-- Severity chosen by `BugClassifier._fallback_parse` (bug_classifier.py lines
144-152): case-insensitive substring search over the response with priority
"critical", then "high", then "low", defaulting to "Medium". -/
def fallbackSeverity (response : String) : String :=
  if hasInfixCI "critical" response then "Critical"
  else if hasInfixCI "high" response then "High"
  else if hasInfixCI "low" response then "Low"
  else "Medium"

/-- `BugClassifier._fallback_parse` (bug_classifier.py lines 142-161): keyword
severity plus default scores 5/5/5, weighted score 5.0, and a fixed reasoning
string. -/
def fallback_parse (response : String) : PyDict :=
  ⟨some (.str (fallbackSeverity response)), some (.num 5), some (.num 5), some (.num 5),
   some (.num 5), some (.str "Parsed from unstructured response")⟩

/-- `BugClassifier._default_classification` (bug_classifier.py lines 163-172). -/
def default_classification : PyDict :=
  ⟨some (.str "Medium"), some (.num 5), some (.num 5), some (.num 5),
   some (.num 5), some (.str "Default classification due to parsing error")⟩

/-- The `if 'weighted_score' not in classification` block of
`_parse_classification` (bug_classifier.py lines 128-134): when the key is
absent, compute `0.5 * get('impact_score', 5) + 0.3 * get('frequency_score', 5)
+ 0.2 * get('recovery_score', 5)`; a non-numeric present sub-score raises
`TypeError` exactly as the Python multiplication does. -/
def addWeighted (c : PyDict) : Except PyErr PyDict :=
  match c.weighted_score with
  | some _ => .ok c
  | none =>
    match toNum (c.impact_score.getD (.num 5)) with
    | .error e => .error e
    | .ok wi =>
    match toNum (c.frequency_score.getD (.num 5)) with
    | .error e => .error e
    | .ok wf =>
    match toNum (c.recovery_score.getD (.num 5)) with
    | .error e => .error e
    | .ok wr =>
      .ok ⟨c.severity, c.impact_score, c.frequency_score, c.recovery_score,
           some (.num (0.5 * wi + 0.3 * wf + 0.2 * wr)), c.reasoning⟩

/-- Body of the `try` block of `BugClassifier._parse_classification`
(bug_classifier.py lines 118-136): extract a brace-delimited block and decode
it, falling back to keyword parsing when no block is found; then ensure a
weighted score is present. -/
def parse_attempt (response : String) : Except PyErr PyDict :=
  match extractJson response with
  | some jstr =>
    match jsonLoads jstr with
    | none => .error .jsonDecodeError
    | some d => addWeighted d
  | none => addWeighted (fallback_parse response)

/-- The `except json.JSONDecodeError` handler (bug_classifier.py lines
138-140): a decode failure - and no other exception - is replaced by the
hardcoded default classification. -/
def catch_decode (attempt : Except PyErr PyDict) : Except PyErr PyDict :=
  match attempt with
  | .error .jsonDecodeError => .ok default_classification
  | r => r

/-- The whole of `_parse_classification`: the attempted parse wrapped in the
decode-error handler. -/
def parse_classification (response : String) : Except PyErr PyDict :=
  catch_decode (parse_attempt response)

/-- `BugClassifier.classify` (bug_classifier.py lines 44-86) from the model
response onward: parse, then validate. The response string is the output of the
external model call, which is outside the verified boundary and therefore a
parameter here. -/
def classify (response : String) : Except PyErr PyDict :=
  match parse_classification response with
  | .error e => .error e
  | .ok c => validate_classification c

/-- One element of `classification_history`: the endpoint together with the
classification stored for it. -/
structure HistEntry where
  endpoint : String
  classification : PyDict
deriving DecidableEq, Repr

/-- `BugClassifier.classify` including its history append (bug_classifier.py
lines 80-83): the returned classification is also appended to the history. -/
def classify_and_record (endpoint response : String) (hist : List HistEntry) :
    Except PyErr (PyDict × List HistEntry) :=
  match classify response with
  | .error e => .error e
  | .ok c => .ok (c, hist ++ [⟨endpoint, c⟩])

/-- Result of `BugClassifier.get_statistics`. -/
structure Stats where
  total_classifications : Nat
  severity_distribution : List (JValue × Nat)
  average_weighted_score : ℚ
deriving DecidableEq, Repr

/-- Python `severity_counts[severity] = severity_counts.get(severity, 0) + 1`
on an insertion-ordered dict: an existing key is incremented in place, a new
key is appended with count 1. -/
def bump : List (JValue × Nat) → JValue → List (JValue × Nat)
  | [], k => [(k, 1)]
  | (k0, n) :: rest, k =>
    if k0 = k then (k0, n + 1) :: rest else (k0, n) :: bump rest k

/-- Lookup in the severity frequency table, zero for an absent key. -/
def statLookup : List (JValue × Nat) → JValue → Nat
  | [], _ => 0
  | (k0, n) :: rest, k => if k0 = k then n else statLookup rest k

/-- The accumulation loop of `get_statistics` (bug_classifier.py lines
207-210): for each history item read its severity (raising `KeyError` when
missing), bump the frequency table, and add its weighted score to the running
total (raising `TypeError` on a non-numeric value). -/
def statsLoop : List HistEntry → List (JValue × Nat) → ℚ →
    Except PyErr (List (JValue × Nat) × ℚ)
  | [], counts, total => .ok (counts, total)
  | e :: rest, counts, total =>
    match e.classification.severity with
    | none => .error .keyError
    | some sev =>
      match e.classification.weighted_score with
      | none => .error .keyError
      | some w =>
        match toNum w with
        | .error err => .error err
        | .ok q => statsLoop rest (bump counts sev) (total + q)

/-- `BugClassifier.get_statistics` (bug_classifier.py lines 195-216). -/
def get_statistics (hist : List HistEntry) : Except PyErr Stats :=
  if hist = [] then .ok ⟨0, [], 0⟩
  else
    match statsLoop hist [] 0 with
    | .error e => .error e
    | .ok (counts, total) => .ok ⟨hist.length, counts, total / (hist.length : ℚ)⟩

/-- Whitespace as matched by the regex class used in the section patterns and
stripped by Python `str.strip` (ASCII range; every string in the claims is
ASCII). -/
def isPyWS (c : Char) : Bool :=
  c = ' ' || c = '\t' || c = '\n' || c = '\r' || c = '\x0b' || c = '\x0c'

/-- Python `str.strip()`: remove whitespace from both ends. -/
def pyStrip (s : String) : String :=
  String.mk (((s.data.dropWhile isPyWS).reverse.dropWhile isPyWS).reverse)

/-- Case-insensitive search for a literal needle (`re.search` with
`re.IGNORECASE` on a pattern with no metacharacters): the characters following
the leftmost occurrence, or `none`. -/
def findCIafter (needle : List Char) : List Char → Option (List Char)
  | [] => if hasPrefixL (lowerL needle) (lowerL []) then some [] else none
  | c :: t =>
    if hasPrefixL (lowerL needle) (lowerL (c :: t)) then some ((c :: t).drop needle.length)
    else findCIafter needle t

/-- Characters before the first occurrence of a double asterisk (the whole list
when none occurs). -/
def takeUntilStars : List Char → List Char
  | [] => []
  | '*' :: '*' :: _ => []
  | c :: t => c :: takeUntilStars t

/-- Capture of the primary section pattern (log_interpreter.py lines 114-124),
which reads, for a given asterisk-bold label: the label (case-insensitive),
then greedy whitespace, then a lazy dotall capture up to a lookahead requiring
a double asterisk or the end of the input. The lazy group therefore ends at the
first double asterisk after the whitespace run, or at the end; stopping just
before a final newline (the other way the end-anchor can match) is
indistinguishable after the code strips the captured text. -/
def asteriskCapture (label : String) (response : String) : Option String :=
  match findCIafter label.data response.data with
  | none => none
  | some rest => some (pyStrip (String.mk (takeUntilStars (rest.dropWhile isPyWS))))

/-- Whether the secondary, de-asterisked pattern matches, which happens exactly
when the plain label occurs case-insensitively: after the label, the pattern
continues with greedy whitespace and a lazy capture guarded by the lookahead
left over from deleting the asterisk escapes. That deletion turns the original
lookahead into one with an empty first alternative, which matches everywhere,
so the pattern as a whole matches at any label occurrence. -/
def plainFind (plainLabel : String) (response : String) : Bool :=
  hasInfixCI plainLabel response

/-- One field of the section-extraction loop (log_interpreter.py lines
121-130): the stripped capture of the asterisk pattern when it matches;
otherwise, when the de-asterisked pattern matches, its captured group - which
is always the empty string, because the degenerate lookahead makes the lazy
group stop immediately; otherwise the initial value, the empty string. -/
def sectionField (astLabel plainLabel : String) (response : String) : String :=
  match asteriskCapture astLabel response with
  | some s => s
  | none => if plainFind plainLabel response then "" else ""

/-- The interpretation dict built by `LogInterpreter._parse_interpretation`,
with the two keys `interpret` adds afterwards modelled as optional. -/
structure Interp where
  root_cause : String
  affected_components : String
  recommended_fix : String
  prevention : String
  raw_response : String
  service_name : Option String
  original_log : Option String
deriving DecidableEq, Repr

/-- Python `s.split('\n\n')`: segments between non-overlapping, leftmost
occurrences of a double newline (an empty segment between adjacent
occurrences, as in Python). -/
def splitParas : List Char → List String
  | [] => [""]
  | '\n' :: '\n' :: t => "" :: splitParas t
  | c :: t =>
    match splitParas t with
    | [] => [String.mk [c]]
    | p :: ps => String.mk (c :: p.data) :: ps

/-- `LogInterpreter._fallback_parse` (log_interpreter.py lines 138-149): split
the response into paragraphs at blank lines, strip each, drop the empty ones,
and assign the first four positionally with fixed placeholders for missing
ones. -/
def interp_fallback_parse (response : String) : Interp :=
  let paragraphs := ((splitParas response.data).map pyStrip).filter (fun p => p ≠ "")
  ⟨paragraphs.getD 0 "Unable to determine root cause",
   paragraphs.getD 1 "Unknown",
   paragraphs.getD 2 "Manual investigation required",
   paragraphs.getD 3 "N/A",
   response, none, none⟩

/-- `LogInterpreter._parse_interpretation` (log_interpreter.py lines 103-136):
extract the four labeled sections (each independently, primary then secondary
pattern), then, if the root-cause field ended up empty, replace the whole
result by the paragraph-splitting fallback. -/
def parse_interpretation (response : String) : Interp :=
  let rc := sectionField "**Root Cause:**" "Root Cause:" response
  let ac := sectionField "**Affected Components:**" "Affected Components:" response
  let rf := sectionField "**Recommended Fix:**" "Recommended Fix:" response
  let pv := sectionField "**Prevention:**" "Prevention:" response
  if rc = "" then interp_fallback_parse response
  else ⟨rc, ac, rf, pv, response, none, none⟩

/-- `PromptTemplates.log_interpretation_prompt` (prompt_templates.py lines
110-151): the f-string embeds the service name and the full, untruncated error
log. -/
def log_interpretation_prompt (error_log service_name : String) : String :=
  "You are a debugging expert analyzing a system failure. Provide a clear, human-readable explanation of what went wrong and how to fix it.\n\n**Service:** "
  ++ service_name
  ++ "\n\n**Error Log:**\n"
  ++ error_log
  ++ "\n\n**Your Task:**\n1. Identify the root cause of the failure\n2. Explain what components are affected\n3. Provide actionable remediation steps\n4. Suggest preventive measures\n\n**Output Format:**\nProvide your analysis in this structure:\n\n**Root Cause:**\n<One clear sentence explaining what caused the failure>\n\n**Affected Components:**\n<List the impacted services, endpoints, or data>\n\n**Recommended Fix:**\n<Step-by-step remediation instructions>\n\n**Prevention:**\n<Suggestions to prevent similar issues>\n\nAnalyze this error now:"

/-- `LogInterpreter.interpret` (log_interpreter.py lines 34-74) from the model
response onward: parse the response, then attach the service name and the
first 500 characters of the error log. -/
def interpret (error_log service_name response : String) : Interp :=
  let i := parse_interpretation response
  ⟨i.root_cause, i.affected_components, i.recommended_fix, i.prevention,
   i.raw_response, some service_name, some (error_log.take 500)⟩

/-- Concrete classification produced in the witness runs below: the keyword
fallback result for a response with no JSON and no severity keyword. -/
def medium_fallback : PyDict :=
  ⟨some (.str "Medium"), some (.num 5), some (.num 5), some (.num 5), some (.num 5),
   some (.str "Parsed from unstructured response")⟩

/-- Concrete two-entry history used by the statistics witness. -/
def stats_hist : List HistEntry :=
  [⟨"/api/orders", ⟨some (.str "High"), none, none, none, some (.num 7), none⟩⟩,
   ⟨"/api/users", ⟨some (.str "High"), none, none, none, some (.num 5), none⟩⟩]

theorem toNum_err {v : JValue} {e : PyErr} (h : toNum v = .error e) : e = .typeError := by
  cases v <;> simp_all [toNum]

theorem toNum_ok_jq {v : JValue} {q : ℚ} (h : toNum v = .ok q) : jq (some v) = q := by
  cases v <;> simp_all [toNum, jq]

theorem toNum_getD_jq {o : Option JValue} {q : ℚ}
    (h : toNum (o.getD (.num 5)) = .ok q) : jq o = q := by
  cases o with
  | none => simp_all [toNum, jq]
  | some v => exact toNum_ok_jq h

theorem clampField_err {o : Option JValue} {e : PyErr}
    (h : clampField o = .error e) : e = .typeError := by
  cases o with
  | none => simp [clampField] at h
  | some v => cases v <;> simp_all [clampField, pyClamp]

theorem clampField_some {v : JValue} {o' : Option JValue}
    (h : clampField (some v) = .ok o') : ∃ w, o' = some w := by
  simp only [clampField] at h
  cases hp : pyClamp v with
  | error e => rw [hp] at h; exact Except.noConfusion h
  | ok w => rw [hp] at h; simp at h; exact ⟨w, h.symm⟩

theorem clampField_none_iff {o o' : Option JValue} (h : clampField o = .ok o') :
    o = none ↔ o' = none := by
  cases o with
  | none =>
    unfold clampField at h
    simp at h
    simp [← h]
  | some v =>
    obtain ⟨w, rfl⟩ := clampField_some h
    simp

theorem clampField_range {o o' : Option JValue} (h : clampField o = .ok o')
    {v : JValue} (hv : o' = some v) : 0 ≤ jq (some v) ∧ jq (some v) ≤ 10 := by
  subst hv
  cases o with
  | none => simp [clampField] at h
  | some w =>
    simp only [clampField] at h
    cases w with
    | num q =>
      simp [pyClamp] at h
      rw [← h]
      simp only [jq]
      unfold pyMax pyMin
      split_ifs <;> constructor <;> linarith
    | bool b => cases b <;> simp [pyClamp] at h <;> rw [← h] <;> norm_num [jq]
    | str s => simp [pyClamp] at h
    | null => simp [pyClamp] at h
    | arr a => simp [pyClamp] at h

theorem clamp_and_reweight_ok {c0 c' : PyDict} (h : clamp_and_reweight c0 = .ok c') :
    clampField c0.impact_score = .ok c'.impact_score ∧
    clampField c0.frequency_score = .ok c'.frequency_score ∧
    clampField c0.recovery_score = .ok c'.recovery_score ∧
    c'.severity = c0.severity ∧ c'.reasoning = c0.reasoning ∧
    c'.weighted_score = some (.num
      (0.5 * jq c'.impact_score + 0.3 * jq c'.frequency_score + 0.2 * jq c'.recovery_score)) := by
  unfold clamp_and_reweight at h
  split at h
  · exact Except.noConfusion h
  rename_i ii hii
  split at h
  · exact Except.noConfusion h
  rename_i ff hff
  split at h
  · exact Except.noConfusion h
  rename_i rr hrr
  split at h
  · exact Except.noConfusion h
  rename_i wi hwi
  split at h
  · exact Except.noConfusion h
  rename_i wf hwf
  split at h
  · exact Except.noConfusion h
  rename_i wr hwr
  cases h
  exact ⟨hii, hff, hrr, rfl, rfl, by
    rw [toNum_getD_jq hwi, toNum_getD_jq hwf, toNum_getD_jq hwr]⟩

theorem clamp_and_reweight_err {c0 : PyDict} {e : PyErr}
    (h : clamp_and_reweight c0 = .error e) : e = .typeError := by
  unfold clamp_and_reweight at h
  split at h
  · rename_i e' he'; cases h; exact clampField_err he'
  rename_i ii hii
  split at h
  · rename_i e' he'; cases h; exact clampField_err he'
  rename_i ff hff
  split at h
  · rename_i e' he'; cases h; exact clampField_err he'
  rename_i rr hrr
  split at h
  · rename_i e' he'; cases h; exact toNum_err he'
  rename_i wi hwi
  split at h
  · rename_i e' he'; cases h; exact toNum_err he'
  rename_i wf hwf
  split at h
  · rename_i e' he'; cases h; exact toNum_err he'
  rename_i wr hwr
  exact Except.noConfusion h

theorem fix_severity_impact (c : PyDict) : (fix_severity c).impact_score = c.impact_score := by
  unfold fix_severity; split <;> rfl

theorem fix_severity_frequency (c : PyDict) : (fix_severity c).frequency_score = c.frequency_score := by
  unfold fix_severity; split <;> rfl

theorem fix_severity_recovery (c : PyDict) : (fix_severity c).recovery_score = c.recovery_score := by
  unfold fix_severity; split <;> rfl

theorem fix_severity_invalid {c : PyDict} (h : sevValid c.severity = false) :
    (fix_severity c).severity = some (.str "Medium") := by
  unfold fix_severity
  rw [if_neg (by simp [h])]

theorem addWeighted_err {c : PyDict} {e : PyErr} (h : addWeighted c = .error e) :
    e = .typeError := by
  unfold addWeighted at h
  split at h
  · exact Except.noConfusion h
  split at h
  · rename_i e' he'; cases h; exact toNum_err he'
  rename_i wi hwi
  split at h
  · rename_i e' he'; cases h; exact toNum_err he'
  rename_i wf hwf
  split at h
  · rename_i e' he'; cases h; exact toNum_err he'
  rename_i wr hwr
  exact Except.noConfusion h

theorem addWeighted_present {c : PyDict} {w : JValue} (hw : c.weighted_score = some w) :
    addWeighted c = .ok c := by
  unfold addWeighted
  rw [hw]

theorem catch_decode_err {a : Except PyErr PyDict} {e : PyErr}
    (h : catch_decode a = .error e) : a = .error e ∧ e ≠ .jsonDecodeError := by
  cases a with
  | ok d => simp [catch_decode] at h
  | error e' =>
    cases e' with
    | jsonDecodeError => simp [catch_decode] at h
    | typeError =>
      simp [catch_decode] at h
      subst h
      exact ⟨rfl, by simp⟩
    | keyError =>
      simp [catch_decode] at h
      subst h
      exact ⟨rfl, by simp⟩

theorem parse_attempt_err {r : String} {e : PyErr} (h : parse_attempt r = .error e) :
    e = .typeError ∨ e = .jsonDecodeError := by
  unfold parse_attempt at h
  split at h
  · rename_i jstr hj
    split at h
    · cases h; right; rfl
    · left; exact addWeighted_err h
  · left; exact addWeighted_err h

theorem parse_classification_err {r : String} {e : PyErr}
    (h : parse_classification r = .error e) : e = .typeError := by
  unfold parse_classification at h
  obtain ⟨ha, hne⟩ := catch_decode_err h
  rcases parse_attempt_err ha with h1 | h1
  · exact h1
  · exact absurd h1 hne

theorem classify_err {r : String} {e : PyErr} (h : classify r = .error e) :
    e = .typeError := by
  unfold classify at h
  split at h
  · rename_i e' he'; cases h; exact parse_classification_err he'
  rename_i c hc
  unfold validate_classification at h
  exact clamp_and_reweight_err h

theorem parse_decode_failure {r j : String} (hj : extractJson r = some j)
    (hl : jsonLoads j = none) : parse_classification r = .ok default_classification := by
  unfold parse_classification parse_attempt
  simp only [hj, hl]
  rfl

unseal Rat.add Rat.mul Rat.ofScientific in
theorem classify_decode_failure {r j : String} (hj : extractJson r = some j)
    (hl : jsonLoads j = none) : classify r = .ok default_classification := by
  unfold classify
  rw [parse_decode_failure hj hl]
  decide

theorem parse_no_json {r : String} (h : extractJson r = none) :
    parse_classification r = .ok (fallback_parse r) := by
  unfold parse_classification parse_attempt
  rw [h, addWeighted_present (c := fallback_parse r) rfl]
  rfl

theorem fallbackSeverity_cases (r : String) :
    fallbackSeverity r = "Critical" ∨ fallbackSeverity r = "High" ∨
    fallbackSeverity r = "Low" ∨ fallbackSeverity r = "Medium" := by
  unfold fallbackSeverity
  split_ifs <;> simp

unseal Rat.add Rat.mul Rat.ofScientific in
theorem validate_fallback_parse (r : String) :
    validate_classification (fallback_parse r) = .ok (fallback_parse r) := by
  rcases fallbackSeverity_cases r with hs | hs | hs | hs <;>
    (unfold fallback_parse; rw [hs]; decide)

/-- C1: for every classification result returned by `classify` - and hence for
the entry appended to `classification_history` - the final `weighted_score`
equals `0.5 * impact + 0.3 * frequency + 0.2 * recovery` computed over the
final (clamped, or defaulted to 5 when absent) sub-scores, with any
model-supplied `weighted_score` overridden by this recomputation. -/
theorem c1_weighted_score_recomputed (endpoint response : String)
    (hist : List HistEntry) (c' : PyDict) (hist' : List HistEntry)
    (h : classify_and_record endpoint response hist = .ok (c', hist')) :
    hist' = hist ++ [⟨endpoint, c'⟩] ∧
    c'.weighted_score = some (.num
      (0.5 * jq c'.impact_score + 0.3 * jq c'.frequency_score + 0.2 * jq c'.recovery_score)) := by
  unfold classify_and_record at h
  split at h
  · exact Except.noConfusion h
  rename_i c hc
  rw [Except.ok.injEq, Prod.mk.injEq] at h
  obtain ⟨h1, h2⟩ := h
  subst h1
  subst h2
  unfold classify at hc
  split at hc
  · exact Except.noConfusion hc
  rename_i c0 hc0
  unfold validate_classification at hc
  exact ⟨rfl, (clamp_and_reweight_ok hc).2.2.2.2.2⟩

unseal Rat.add Rat.mul Rat.ofScientific in
theorem c1_witness :
    classify_and_record "/api/users" "plain text" [] =
      .ok (medium_fallback, [⟨"/api/users", medium_fallback⟩]) ∧
    ([(⟨"/api/users", medium_fallback⟩ : HistEntry)] =
       [] ++ [(⟨"/api/users", medium_fallback⟩ : HistEntry)] ∧
     medium_fallback.weighted_score = some (.num (0.5 * jq medium_fallback.impact_score +
       0.3 * jq medium_fallback.frequency_score + 0.2 * jq medium_fallback.recovery_score))) :=
  ⟨by decide, c1_weighted_score_recomputed "/api/users" "plain text" []
      medium_fallback [⟨"/api/users", medium_fallback⟩] (by decide)⟩

/-- C2 counterexample: the claim that `classify` never raises from the
parsing/validation path is false. The response below contains a decodable JSON
object whose `impact_score` is a string; the weighted-score computation
`0.5 * classification.get('impact_score', 5) + ...` then raises `TypeError`,
which the handler - which catches only `json.JSONDecodeError` - does not stop,
so the exception reaches the caller instead of the default result. -/
theorem c2_counterexample :
    classify "\x7b\"impact_score\": \"abc\"\x7d" = .error .typeError := by decide

/-- C2 amended: the only exceptions that can escape the parsing/validation path
are `TypeError`s arising from non-numeric field values in the decoded JSON; an
exception during JSON decode itself is caught and yields the hardcoded default
result (severity "Medium", all sub-scores 5, weighted score 5.0). -/
theorem c2_amended_parse_failures (r : String) :
    (∀ e, classify r = .error e → e = .typeError) ∧
    (∀ j, extractJson r = some j → jsonLoads j = none →
      classify r = .ok default_classification) :=
  ⟨fun _ h => classify_err h, fun _ hj hl => classify_decode_failure hj hl⟩

unseal Rat.add Rat.mul Rat.ofScientific in
theorem c2_witness :
    extractJson "\x7b]\x7d" = some "\x7b]\x7d" ∧ jsonLoads "\x7b]\x7d" = none ∧
    classify "\x7b]\x7d" = .ok default_classification :=
  ⟨by decide, by decide,
   (c2_amended_parse_failures "\x7b]\x7d").2 "\x7b]\x7d" (by decide) (by decide)⟩

/-- C3: after a successful validation, each of the three sub-scores present in
the result lies in the interval 0..10, and a model-supplied numeric sub-score
is clamped to `max(0, min(10, score))`, regardless of magnitude or sign. -/
theorem c3_scores_clamped_in_range (c c' : PyDict)
    (h : validate_classification c = .ok c') :
    (∀ v, c'.impact_score = some v → 0 ≤ jq (some v) ∧ jq (some v) ≤ 10) ∧
    (∀ v, c'.frequency_score = some v → 0 ≤ jq (some v) ∧ jq (some v) ≤ 10) ∧
    (∀ v, c'.recovery_score = some v → 0 ≤ jq (some v) ∧ jq (some v) ≤ 10) ∧
    (∀ q, c.impact_score = some (.num q) →
      c'.impact_score = some (.num (pyMax 0 (pyMin 10 q)))) ∧
    (∀ q, c.frequency_score = some (.num q) →
      c'.frequency_score = some (.num (pyMax 0 (pyMin 10 q)))) ∧
    (∀ q, c.recovery_score = some (.num q) →
      c'.recovery_score = some (.num (pyMax 0 (pyMin 10 q)))) := by
  unfold validate_classification at h
  obtain ⟨hi, hf, hr, _, _, _⟩ := clamp_and_reweight_ok h
  rw [fix_severity_impact] at hi
  rw [fix_severity_frequency] at hf
  rw [fix_severity_recovery] at hr
  refine ⟨fun v hv => clampField_range hi hv, fun v hv => clampField_range hf hv,
          fun v hv => clampField_range hr hv, ?_, ?_, ?_⟩
  · intro q hq
    rw [hq] at hi
    simp [clampField, pyClamp] at hi
    exact hi.symm
  · intro q hq
    rw [hq] at hf
    simp [clampField, pyClamp] at hf
    exact hf.symm
  · intro q hq
    rw [hq] at hr
    simp [clampField, pyClamp] at hr
    exact hr.symm

unseal Rat.add Rat.mul Rat.ofScientific in
theorem c3_witness :
    validate_classification
      ⟨some (.str "High"), some (.num 9), some (.num 20), some (.num (-3)), none, none⟩ =
      .ok ⟨some (.str "High"), some (.num 9), some (.num 10), some (.num 0),
           some (.num 7.5), none⟩ ∧
    ((∀ v, (some (.num 9) : Option JValue) = some v → 0 ≤ jq (some v) ∧ jq (some v) ≤ 10) ∧
     (∀ v, (some (.num 10) : Option JValue) = some v → 0 ≤ jq (some v) ∧ jq (some v) ≤ 10) ∧
     (∀ v, (some (.num 0) : Option JValue) = some v → 0 ≤ jq (some v) ∧ jq (some v) ≤ 10) ∧
     (∀ q, (some (.num 9) : Option JValue) = some (.num q) →
       (some (.num 9) : Option JValue) = some (.num (pyMax 0 (pyMin 10 q)))) ∧
     (∀ q, (some (.num 20) : Option JValue) = some (.num q) →
       (some (.num 10) : Option JValue) = some (.num (pyMax 0 (pyMin 10 q)))) ∧
     (∀ q, (some (.num (-3)) : Option JValue) = some (.num q) →
       (some (.num 0) : Option JValue) = some (.num (pyMax 0 (pyMin 10 q))))) :=
  ⟨by decide,
   c3_scores_clamped_in_range
     ⟨some (.str "High"), some (.num 9), some (.num 20), some (.num (-3)), none, none⟩
     ⟨some (.str "High"), some (.num 9), some (.num 10), some (.num 0),
      some (.num 7.5), none⟩ (by decide)⟩

/-- C4: whenever the incoming severity is not one of the four labels Critical,
High, Medium, Low - including the case of a missing severity key, for which
`get` returns `None` - the validated result carries severity "Medium". -/
theorem c4_invalid_severity_coerced (c c' : PyDict)
    (h : validate_classification c = .ok c') (hs : sevValid c.severity = false) :
    c'.severity = some (.str "Medium") ∧ sevValid none = false := by
  unfold validate_classification at h
  have hsev := (clamp_and_reweight_ok h).2.2.2.1
  rw [hsev, fix_severity_invalid hs]
  exact ⟨rfl, rfl⟩

unseal Rat.add Rat.mul Rat.ofScientific in
theorem c4_witness :
    validate_classification ⟨some (.str "Blocker"), none, none, none, none, none⟩ =
      .ok ⟨some (.str "Medium"), none, none, none, some (.num 5), none⟩ ∧
    sevValid (some (.str "Blocker")) = false ∧
    (⟨some (.str "Medium"), none, none, none, some (.num 5), none⟩ : PyDict).severity =
      some (.str "Medium") ∧ sevValid none = false :=
  ⟨by decide, by decide, by
    have := c4_invalid_severity_coerced
      ⟨some (.str "Blocker"), none, none, none, none, none⟩
      ⟨some (.str "Medium"), none, none, none, some (.num 5), none⟩
      (by decide) (by decide)
    exact this⟩

unseal Rat.add Rat.mul Rat.ofScientific in
/-- C5: for every model response containing no brace-delimited JSON block, the
classification is the fallback result: sub-scores 5/5/5, weighted score 5.0,
reasoning "Parsed from unstructured response", and severity chosen by
case-insensitive substring search with priority critical, high, low, default
"Medium"; in particular the response "the system is critical and
unrecoverable" classifies as Critical with scores 5/5/5 and weighted 5.0. -/
theorem c5_fallback_keyword_severity (r : String) (h : extractJson r = none) :
    classify r = .ok ⟨some (.str (fallbackSeverity r)), some (.num 5), some (.num 5),
      some (.num 5), some (.num 5), some (.str "Parsed from unstructured response")⟩ ∧
    fallbackSeverity r = (if hasInfixCI "critical" r then "Critical"
      else if hasInfixCI "high" r then "High"
      else if hasInfixCI "low" r then "Low" else "Medium") ∧
    classify "the system is critical and unrecoverable" = .ok
      ⟨some (.str "Critical"), some (.num 5), some (.num 5), some (.num 5), some (.num 5),
       some (.str "Parsed from unstructured response")⟩ := by
  refine ⟨?_, rfl, by decide⟩
  unfold classify
  rw [parse_no_json h]
  exact validate_fallback_parse r

unseal Rat.add Rat.mul Rat.ofScientific in
theorem c5_witness :
    extractJson "nothing structured, all fine" = none ∧
    classify "nothing structured, all fine" = .ok
      ⟨some (.str "Medium"), some (.num 5), some (.num 5), some (.num 5), some (.num 5),
       some (.str "Parsed from unstructured response")⟩ :=
  ⟨by decide, (c5_fallback_keyword_severity "nothing structured, all fine" (by decide)).1⟩

unseal Rat.add Rat.mul Rat.ofScientific in
/-- C10: a successful validation preserves the absence of each of the three
sub-score keys (clamping is skipped for absent keys) and the recomputed
weighted score treats each absent component as 5 (the reading `jq` maps an
absent score to the default 5); in particular the response consisting of the
JSON object with only a severity of "High" classifies as High with weighted
score 5.0 and no sub-score keys in the result. -/
theorem c10_absent_scores_preserved (c c' : PyDict)
    (h : validate_classification c = .ok c') :
    (c'.impact_score = none ↔ c.impact_score = none) ∧
    (c'.frequency_score = none ↔ c.frequency_score = none) ∧
    (c'.recovery_score = none ↔ c.recovery_score = none) ∧
    jq none = 5 ∧
    c'.weighted_score = some (.num (0.5 * jq c'.impact_score +
      0.3 * jq c'.frequency_score + 0.2 * jq c'.recovery_score)) ∧
    classify "\x7b\"severity\": \"High\"\x7d" = .ok
      ⟨some (.str "High"), none, none, none, some (.num 5), none⟩ := by
  unfold validate_classification at h
  obtain ⟨hi, hf, hr, _, _, hw⟩ := clamp_and_reweight_ok h
  rw [fix_severity_impact] at hi
  rw [fix_severity_frequency] at hf
  rw [fix_severity_recovery] at hr
  exact ⟨(clampField_none_iff hi).symm, (clampField_none_iff hf).symm,
    (clampField_none_iff hr).symm, rfl, hw, by decide⟩

unseal Rat.add Rat.mul Rat.ofScientific in
theorem c10_witness :
    validate_classification ⟨some (.str "High"), none, none, none, none, none⟩ =
      .ok ⟨some (.str "High"), none, none, none, some (.num 5), none⟩ ∧
    (((none : Option JValue) = none ↔ (none : Option JValue) = none) ∧
     ((none : Option JValue) = none ↔ (none : Option JValue) = none) ∧
     ((none : Option JValue) = none ↔ (none : Option JValue) = none) ∧
     jq none = 5 ∧
     (⟨some (.str "High"), none, none, none, some (.num 5), none⟩ : PyDict).weighted_score =
       some (.num (0.5 * jq (none : Option JValue) + 0.3 * jq (none : Option JValue) +
         0.2 * jq (none : Option JValue))) ∧
     classify "\x7b\"severity\": \"High\"\x7d" = .ok
       ⟨some (.str "High"), none, none, none, some (.num 5), none⟩) :=
  ⟨by decide,
   c10_absent_scores_preserved ⟨some (.str "High"), none, none, none, none, none⟩
     ⟨some (.str "High"), none, none, none, some (.num 5), none⟩ (by decide)⟩

theorem hasPrefixL_append {u v : List Char} : ∀ {h : List Char},
    hasPrefixL (u ++ v) h = true → hasPrefixL u h = true := by
  induction u with
  | nil => intro h _; rfl
  | cons a as ih =>
    intro h hp
    cases h with
    | nil => simp [hasPrefixL] at hp
    | cons b bs =>
      simp only [List.cons_append, hasPrefixL, Bool.and_eq_true] at hp ⊢
      exact ⟨hp.1, ih hp.2⟩

theorem hasPrefixL_infix {n h : List Char} (hp : hasPrefixL n h = true) :
    hasInfixL n h = true := by
  cases h with
  | nil => simpa [hasInfixL] using hp
  | cons c t => simp [hasInfixL, hp]

theorem hasInfixL_of_prefix_part {a b : List Char} : ∀ {h : List Char},
    hasPrefixL (a ++ b) h = true → hasInfixL b h = true := by
  induction a with
  | nil => intro h hp; exact hasPrefixL_infix hp
  | cons x xs ih =>
    intro h hp
    cases h with
    | nil => simp [hasPrefixL] at hp
    | cons y ys =>
      simp only [List.cons_append, hasPrefixL, Bool.and_eq_true] at hp
      have := ih hp.2
      simp [hasInfixL, this]

theorem hasInfixL_mid {a b c : List Char} : ∀ {h : List Char},
    hasInfixL (a ++ b ++ c) h = true → hasInfixL b h = true := by
  intro h
  induction h with
  | nil =>
    intro hi
    have habc : a ++ b ++ c = [] := by
      cases hx : a ++ b ++ c with
      | nil => rfl
      | cons q qs => rw [hx] at hi; simp [hasInfixL, hasPrefixL] at hi
    have hb : b = [] := (List.append_eq_nil.mp (List.append_eq_nil.mp habc).1).2
    subst hb
    rfl
  | cons x t ih =>
    intro hi
    have hsplit : hasPrefixL (a ++ b ++ c) (x :: t) = true ∨
        hasInfixL (a ++ b ++ c) t = true := by
      have hde : hasInfixL (a ++ b ++ c) (x :: t) =
          (hasPrefixL (a ++ b ++ c) (x :: t) || hasInfixL (a ++ b ++ c) t) := rfl
      rw [hde] at hi
      exact (Bool.or_eq_true _ _).mp hi
    rcases hsplit with hp | ht
    · exact hasInfixL_of_prefix_part (hasPrefixL_append hp)
    · have hb := ih ht
      have hde : hasInfixL b (x :: t) = (hasPrefixL b (x :: t) || hasInfixL b t) := rfl
      rw [hde, hb, Bool.or_true]

theorem findCIafter_infix {n : List Char} : ∀ {h rest : List Char},
    findCIafter n h = some rest → hasInfixL (lowerL n) (lowerL h) = true := by
  intro h
  induction h with
  | nil =>
    intro rest hf
    unfold findCIafter at hf
    split at hf
    · rename_i hp; exact hasPrefixL_infix hp
    · exact Option.noConfusion hf
  | cons c t ih =>
    intro rest hf
    unfold findCIafter at hf
    split at hf
    · rename_i hp; exact hasPrefixL_infix hp
    · have hrec := ih hf
      have hde : hasInfixL (lowerL n) (lowerL (c :: t)) =
          (hasPrefixL (lowerL n) (lowerL (c :: t)) || hasInfixL (lowerL n) (lowerL t)) := rfl
      rw [hde, hrec, Bool.or_true]

theorem asteriskCapture_occurs {label r s : String}
    (h : asteriskCapture label r = some s) :
    hasInfixL (lowerL label.data) (lowerL r.data) = true := by
  unfold asteriskCapture at h
  cases hf : findCIafter label.data r.data with
  | none => rw [hf] at h; exact Option.noConfusion h
  | some rest => exact findCIafter_infix hf

/-- C6 (code bug): evaluation at the failing input. The response labels its
sections in the plain style without asterisks; the secondary pattern locates
"Root Cause:" in the text (first conjunct), the asterisk pattern does not
(second conjunct), and yet the parser replaces the whole result by the
paragraph-splitting fallback (third conjunct), because the de-asterisked
pattern's capture group is always empty. The fallback then assigns the four
stripped paragraphs positionally, label text included (fourth conjunct),
instead of the labeled section contents. -/
theorem c6_plain_label_still_falls_back :
    plainFind "Root Cause:"
      "Root Cause: disk failure\n\nDatabase layer\n\nReplace the disk\n\nMonitor disk health" = true ∧
    asteriskCapture "**Root Cause:**"
      "Root Cause: disk failure\n\nDatabase layer\n\nReplace the disk\n\nMonitor disk health" = none ∧
    parse_interpretation
      "Root Cause: disk failure\n\nDatabase layer\n\nReplace the disk\n\nMonitor disk health" =
      interp_fallback_parse
        "Root Cause: disk failure\n\nDatabase layer\n\nReplace the disk\n\nMonitor disk health" ∧
    parse_interpretation
      "Root Cause: disk failure\n\nDatabase layer\n\nReplace the disk\n\nMonitor disk health" =
      ⟨"Root Cause: disk failure", "Database layer", "Replace the disk", "Monitor disk health",
       "Root Cause: disk failure\n\nDatabase layer\n\nReplace the disk\n\nMonitor disk health",
       none, none⟩ :=
  ⟨by decide, by decide, by decide, by decide⟩

/-- C7: a response whose Root Cause section is found by the asterisk pattern
with nonempty content, which contains Affected Components and Recommended Fix
sections, and which contains no Prevention label under either pattern (no
case-insensitive occurrence of "Prevention:", hence none of
"**Prevention:**" either), yields prevention equal to the empty string - not a
placeholder - because the primary parse path handles each field
independently. -/
theorem c7_missing_prevention_empty (r s : String)
    (hrc : asteriskCapture "**Root Cause:**" r = some s) (hne : s ≠ "")
    (_hac : ∃ a, asteriskCapture "**Affected Components:**" r = some a)
    (_hrf : ∃ f, asteriskCapture "**Recommended Fix:**" r = some f)
    (hp : hasInfixCI "Prevention:" r = false) :
    (parse_interpretation r).prevention = "" := by
  have hpast : asteriskCapture "**Prevention:**" r = none := by
    cases hcap : asteriskCapture "**Prevention:**" r with
    | none => rfl
    | some x =>
      exfalso
      have hin := asteriskCapture_occurs hcap
      have hdec : lowerL (String.data "**Prevention:**") =
          ['*', '*'] ++ lowerL (String.data "Prevention:") ++ ['*', '*'] := by decide
      rw [hdec] at hin
      have hmid := hasInfixL_mid hin
      unfold hasInfixCI at hp
      rw [hmid] at hp
      exact Bool.noConfusion hp
  have hrc' : sectionField "**Root Cause:**" "Root Cause:" r = s := by
    unfold sectionField
    rw [hrc]
  simp only [parse_interpretation]
  rw [hrc', if_neg hne]
  show sectionField "**Prevention:**" "Prevention:" r = ""
  unfold sectionField
  rw [hpast]
  exact ite_self ""

theorem c7_witness :
    asteriskCapture "**Root Cause:**"
      "**Root Cause:** bad config\n\n**Affected Components:** api\n\n**Recommended Fix:** fix it"
      = some "bad config" ∧
    ("bad config" : String) ≠ "" ∧
    (∃ a, asteriskCapture "**Affected Components:**"
      "**Root Cause:** bad config\n\n**Affected Components:** api\n\n**Recommended Fix:** fix it"
      = some a) ∧
    (∃ f, asteriskCapture "**Recommended Fix:**"
      "**Root Cause:** bad config\n\n**Affected Components:** api\n\n**Recommended Fix:** fix it"
      = some f) ∧
    hasInfixCI "Prevention:"
      "**Root Cause:** bad config\n\n**Affected Components:** api\n\n**Recommended Fix:** fix it"
      = false ∧
    (parse_interpretation
      "**Root Cause:** bad config\n\n**Affected Components:** api\n\n**Recommended Fix:** fix it").prevention = "" :=
  ⟨by decide, by decide, ⟨"api", by decide⟩, ⟨"fix it", by decide⟩, by decide,
   c7_missing_prevention_empty
     "**Root Cause:** bad config\n\n**Affected Components:** api\n\n**Recommended Fix:** fix it"
     "bad config" (by decide) (by decide) ⟨"api", by decide⟩ ⟨"fix it", by decide⟩ (by decide)⟩

/-- C9: the result of `interpret` stores as `original_log` exactly the first
500 characters of the error log (the whole log when shorter), while the prompt
built for the model embeds the untruncated error log. -/
theorem c9_original_log_truncated (error_log service_name response : String) :
    (interpret error_log service_name response).original_log =
      some (error_log.take 500) ∧
    ∃ a b, log_interpretation_prompt error_log service_name = a ++ error_log ++ b :=
  ⟨rfl, ⟨_, _, rfl⟩⟩

theorem bump_lookup (l : List (JValue × Nat)) (k v : JValue) :
    statLookup (bump l k) v = statLookup l v + (if k = v then 1 else 0) := by
  induction l with
  | nil => by_cases hkv : k = v <;> simp [bump, statLookup, hkv]
  | cons p rest ih =>
    obtain ⟨k0, n⟩ := p
    by_cases hk : k0 = k
    · subst hk
      by_cases hv : k0 = v <;> simp [bump, statLookup, hv]
    · by_cases hv : k0 = v
      · subst hv
        have hkv : ¬ k = k0 := fun hx => hk hx.symm
        simp [bump, statLookup, hk, hkv]
      · simp [bump, statLookup, hk, hv, ih]

theorem statsLoop_cons {e : HistEntry} {rest : List HistEntry}
    {counts : List (JValue × Nat)} {total : ℚ} {s : JValue} {q : ℚ}
    (hs : e.classification.severity = some s)
    (hq : e.classification.weighted_score = some (.num q)) :
    statsLoop (e :: rest) counts total = statsLoop rest (bump counts s) (total + q) := by
  conv_lhs => rw [statsLoop]
  rw [hs, hq]
  rfl

theorem statsLoop_spec (hist : List HistEntry) :
    ∀ (counts : List (JValue × Nat)) (total : ℚ),
    (∀ e ∈ hist, (∃ s, e.classification.severity = some s) ∧
      (∃ q, e.classification.weighted_score = some (.num q))) →
    ∃ counts', statsLoop hist counts total =
        .ok (counts', total + (hist.map (fun e => jq e.classification.weighted_score)).sum) ∧
      ∀ v, statLookup counts' v = statLookup counts v +
        (hist.filter (fun e => decide (e.classification.severity = some v))).length := by
  induction hist with
  | nil =>
    intro counts total _
    exact ⟨counts, by simp [statsLoop], fun v => by simp⟩
  | cons e rest ih =>
    intro counts total hwf
    obtain ⟨⟨s, hs⟩, ⟨q, hq⟩⟩ := hwf e (by simp)
    obtain ⟨counts', hloop, hlook⟩ :=
      ih (bump counts s) (total + q) (fun x hx => hwf x (by simp [hx]))
    refine ⟨counts', ?_, ?_⟩
    · rw [statsLoop_cons hs hq, hloop]
      have hsum : (List.map (fun x => jq x.classification.weighted_score) (e :: rest)).sum
          = q + (List.map (fun x => jq x.classification.weighted_score) rest).sum := by
        simp [hq, jq]
      rw [hsum, ← add_assoc]
    · intro v
      rw [hlook v, bump_lookup]
      have hfil : (List.filter (fun x => decide (x.classification.severity = some v)) (e :: rest)).length
          = (if s = v then 1 else 0) +
            (List.filter (fun x => decide (x.classification.severity = some v)) rest).length := by
        by_cases hsv : s = v
        · subst hsv
          simp [List.filter_cons, hs]
          omega
        · simp [List.filter_cons, hs, hsv]
      rw [hfil]
      omega

/-- C8: `get_statistics` returns zero total, empty distribution and average 0.0
on an empty history; on a nonempty history it returns the number of entries, a
frequency table mapping each severity seen to its count, and the arithmetic
mean of the weighted scores. -/
theorem c8_statistics_spec :
    get_statistics [] = .ok ⟨0, [], 0⟩ ∧
    ∀ hist : List HistEntry, hist ≠ [] →
      (∀ e ∈ hist, (∃ s, e.classification.severity = some s) ∧
        (∃ q, e.classification.weighted_score = some (.num q))) →
      ∃ st, get_statistics hist = .ok st ∧
        st.total_classifications = hist.length ∧
        st.average_weighted_score =
          (hist.map (fun e => jq e.classification.weighted_score)).sum / (hist.length : ℚ) ∧
        ∀ v, statLookup st.severity_distribution v =
          (hist.filter (fun e => decide (e.classification.severity = some v))).length := by
  refine ⟨by simp [get_statistics], ?_⟩
  intro hist hne hwf
  obtain ⟨counts', hloop, hlook⟩ := statsLoop_spec hist [] 0 hwf
  refine ⟨⟨hist.length, counts',
    (0 + (hist.map (fun e => jq e.classification.weighted_score)).sum) / (hist.length : ℚ)⟩,
    ?_, rfl, by simp, ?_⟩
  · unfold get_statistics
    rw [if_neg hne, hloop]
  · intro v
    simpa [statLookup] using hlook v

theorem c8_witness :
    stats_hist ≠ [] ∧
    ∃ st, get_statistics stats_hist = .ok st ∧
      st.total_classifications = stats_hist.length ∧
      st.average_weighted_score =
        (stats_hist.map (fun e => jq e.classification.weighted_score)).sum /
          (stats_hist.length : ℚ) ∧
      ∀ v, statLookup st.severity_distribution v =
        (stats_hist.filter (fun e => decide (e.classification.severity = some v))).length :=
  ⟨by decide,
   c8_statistics_spec.2 stats_hist (by decide) (fun e he => by
     rcases List.mem_cons.mp he with rfl | he2
     · exact ⟨⟨.str "High", rfl⟩, ⟨7, rfl⟩⟩
     rcases List.mem_cons.mp he2 with rfl | he3
     · exact ⟨⟨.str "High", rfl⟩, ⟨5, rfl⟩⟩
     · cases he3)⟩
